import Mathlib

/-! Verification of the matatu-league/be-matatu move-legality engine
(`src/rules.js`) and turn orchestrator
(`src/websocket/handlers/handleMove.ts`) against their specification.

Cards travel on the wire as `{v, s}` objects: `v` is a JS number
(2–10, 11 = Jack, 15 = Ace, 50 = joker) and `s` is a one-letter suit
string (`"H" "D" "S" "C"` plus `"R"`/`"B"` for the red/black joker).
We model `v` as `Int` and `s` as `String`.  JS `null`/`undefined`
option fields become `Option`; JS truthiness on a suit string is
modelled as `Option.isSome` (real suits are non-empty strings). -/

namespace Matatu

structure Card where
  v : Int
  s : String
deriving DecidableEq, Repr

/-- Penalty value a joker contributes (`JOKER_PENALTY_VALUE` in rules.js). -/
def JOKER_PENALTY_VALUE : Int := 5

/-- The master card, Ace (15) of Spades (`MASTER_CARD` in rules.js). -/
def MASTER_CARD : Card := ⟨15, "S"⟩

inductive NextActionType where
  | INVALID_MOVE
  | PLAY_CARD
  | CHOOSE_SUIT
  | APPLY_PENALTY
  | SKIP_TURN
  | END_TURN
  | REDUCE_PENALTY
  | TRANSFER_PENALTY
deriving DecidableEq, Repr

/-- Result object of `getNextAction` / `calculatePenaltyAction`.  Fields a
JS branch leaves `undefined` are modelled by the neutral defaults
(`false` / `none`); the integer counters default to 0 exactly where the
source spreads them in explicitly. -/
structure NextAction where
  valid : Bool
  type : NextActionType
  nextPlayerPenaltyCount : Int := 0
  currentPenaltyCount : Int := 0
  allowSuitChoice : Bool := false
  penaltyCards : Option Int := none
  skipTurns : Option Int := none
  drawCards : Option Int := none
deriving DecidableEq, Repr

/-- Card-effect record produced by `getCardEffectAction` (`type`,
`allowSuitChoice`, `penaltyCards`, `skipTurns`; messages are not modelled). -/
structure CardEffect where
  type : NextActionType
  allowSuitChoice : Bool := false
  penaltyCards : Option Int := none
  skipTurns : Option Int := none
deriving DecidableEq, Repr

/-- rules.js `isJoker`: suit is one of the two joker markers. -/
def isJoker (card : Card) : Bool :=
  card.s == "R" || card.s == "B"

/-- rules.js `isMasterCard`: Ace of Spades. -/
def isMasterCard (card : Card) : Bool :=
  card.v == 15 && card.s == "S"

/-- rules.js `isAce`: value 15 in any suit. -/
def isAce (card : Card) : Bool :=
  card.v == 15

/-- rules.js `isPenaltyCard`: value in `PENALTY_VALUES = [2, 3, 50]` or joker. -/
def isPenaltyCard (card : Card) : Bool :=
  card.v == 2 || card.v == 3 || card.v == 50 || isJoker card

/-- rules.js `isValidJokerMove`: a joker (played or previous) matches when the
target suit — the selected suit if present, otherwise the other card's
suit — falls in the joker's colour group (`RED = [H, D]`, `BLACK = [S, C]`). -/
def isValidJokerMove (card prevCard : Card) (selectedSuit : Option String) : Bool :=
  if !isJoker card && !isJoker prevCard then false
  else
    let jokerCard := if isJoker card then card else prevCard
    let isRedJoker := jokerCard.s == "R"
    let isBlackJoker := jokerCard.s == "B"
    let targetSuit := selectedSuit.getD (if isJoker card then prevCard.s else card.s)
    if isRedJoker then targetSuit == "H" || targetSuit == "D"
    else if isBlackJoker then targetSuit == "S" || targetSuit == "C"
    else false

/-- rules.js `isBasicMatch`: with a selected suit only that suit matches;
otherwise value match, suit match, or joker colour match. -/
def isBasicMatch (card prevCard : Card) (selectedSuit : Option String) : Bool :=
  match selectedSuit with
  | some s => card.s == s
  | none =>
    let hasValueMatch := card.v == prevCard.v
    let hasSuitMatch := card.s == prevCard.s
    let hasJokerColorMatch := isValidJokerMove card prevCard none
    hasValueMatch || hasSuitMatch || hasJokerColorMatch

/-- rules.js `getCardEffectAction`: effect of a card played outside the
penalty-resolution algorithm.  The branch order mirrors the source. -/
def getCardEffectAction (card : Card) (isPenaltyActive : Bool) : CardEffect :=
  if isJoker card then
    { type := .CHOOSE_SUIT, allowSuitChoice := true, penaltyCards := some JOKER_PENALTY_VALUE }
  else if isMasterCard card && isPenaltyActive then
    { type := .END_TURN }
  else if isAce card && !isPenaltyActive then
    { type := .CHOOSE_SUIT, allowSuitChoice := true }
  else if card.v == 2 then
    { type := .APPLY_PENALTY, penaltyCards := some 2 }
  else if card.v == 3 then
    { type := .APPLY_PENALTY, penaltyCards := some 3 }
  else if card.v == 8 || card.v == 11 then
    { type := .SKIP_TURN, skipTurns := some 1 }
  else if card.v == 50 then
    { type := .APPLY_PENALTY, penaltyCards := some JOKER_PENALTY_VALUE }
  else
    { type := .END_TURN }

/-- rules.js `getCardPenaltyValue`: 5 for jokers, face value otherwise. -/
def getCardPenaltyValue (card : Card) : Int :=
  if isJoker card then JOKER_PENALTY_VALUE else card.v

/-- rules.js `calculatePenaltyAction`: resolution when a penalty card is
played during an active penalty.  The source object carries no `valid`
field; its only caller spreads it under `valid: true`, which we inline. -/
def calculatePenaltyAction (playedCard prevCard : Card) (currentPenaltyCount : Int)
    (selectedSuit : Option String) : NextAction :=
  let referenceSuit := selectedSuit.getD prevCard.s
  let prevPenaltyValue := getCardPenaltyValue prevCard
  let playedPenaltyValue := getCardPenaltyValue playedCard
  let hasSameValue := isPenaltyCard prevCard && prevPenaltyValue == playedPenaltyValue
  let hasSameSuit := isPenaltyCard prevCard && referenceSuit == playedCard.s
  let isPrevCardStronger := isPenaltyCard prevCard && prevPenaltyValue > playedPenaltyValue
  let isPrevCardWeaker := isPenaltyCard prevCard && prevPenaltyValue < playedPenaltyValue
  let hasColorMatch := isValidJokerMove playedCard prevCard selectedSuit
  if hasSameValue then
    { valid := true, type := .TRANSFER_PENALTY,
      nextPlayerPenaltyCount := playedPenaltyValue, currentPenaltyCount := 0 }
  else if hasSameSuit && isPrevCardWeaker then
    { valid := true, type := .TRANSFER_PENALTY,
      nextPlayerPenaltyCount := playedPenaltyValue, currentPenaltyCount := 0 }
  else if hasSameSuit && isPrevCardStronger then
    let remainingPenalty := max (currentPenaltyCount - playedPenaltyValue) 0
    { valid := true, type := .REDUCE_PENALTY, nextPlayerPenaltyCount := 0,
      currentPenaltyCount := remainingPenalty, drawCards := some remainingPenalty }
  else if hasColorMatch && isPrevCardWeaker then
    { valid := true, type := .TRANSFER_PENALTY,
      nextPlayerPenaltyCount := currentPenaltyCount + playedPenaltyValue,
      currentPenaltyCount := 0 }
  else if hasColorMatch && isPrevCardStronger then
    let remainingPenalty := max (currentPenaltyCount - playedPenaltyValue) 0
    { valid := true, type := .REDUCE_PENALTY, nextPlayerPenaltyCount := 0,
      currentPenaltyCount := remainingPenalty, drawCards := some remainingPenalty }
  else
    let cardEffect := getCardEffectAction playedCard false
    { valid := true, type := cardEffect.type,
      allowSuitChoice := cardEffect.allowSuitChoice,
      penaltyCards := cardEffect.penaltyCards, skipTurns := cardEffect.skipTurns,
      nextPlayerPenaltyCount := currentPenaltyCount + (cardEffect.penaltyCards.getD 0),
      currentPenaltyCount := 0 }

/-- Parameter object of rules.js `getNextAction`, with the source defaults. -/
structure MoveParams where
  prevCard : Option Card
  playedCard : Card
  isPenaltyActive : Bool := false
  selectedSuit : Option String := none
  currentPenaltyCount : Int := 0
  nextPlayerPenaltyCount : Int := 0
deriving DecidableEq, Repr

/-- Pack a `CardEffect` under the counters a `getNextAction` branch spreads
around it (`nextPlayerPenaltyCount = cardEffect.penaltyCards or 0`,
`currentPenaltyCount = 0`). -/
def effectWithCounts (ce : CardEffect) : NextAction :=
  { valid := true, type := ce.type,
    nextPlayerPenaltyCount := ce.penaltyCards.getD 0, currentPenaltyCount := 0,
    allowSuitChoice := ce.allowSuitChoice,
    penaltyCards := ce.penaltyCards, skipTurns := ce.skipTurns }

/-- rules.js `getNextAction`: validates a move and returns the next action. -/
def getNextAction (p : MoveParams) : NextAction :=
  match p.prevCard with
  | none =>
    -- First move - any card is valid
    effectWithCounts (getCardEffectAction p.playedCard p.isPenaltyActive)
  | some prevCard =>
    let isValidMove :=
      isBasicMatch p.playedCard prevCard p.selectedSuit ||
      isMasterCard p.playedCard ||
      (p.selectedSuit.isSome && p.playedCard.s == p.selectedSuit.getD "") ||
      isValidJokerMove p.playedCard prevCard p.selectedSuit ||
      isAce p.playedCard
    if !isValidMove then
      { valid := false, type := .INVALID_MOVE,
        nextPlayerPenaltyCount := p.nextPlayerPenaltyCount,
        currentPenaltyCount := p.currentPenaltyCount }
    else if p.isPenaltyActive ∧ p.currentPenaltyCount > 0 then
      if isMasterCard p.playedCard then
        let ce := getCardEffectAction p.playedCard p.isPenaltyActive
        { valid := true, type := ce.type,
          nextPlayerPenaltyCount := 0, currentPenaltyCount := 0,
          allowSuitChoice := ce.allowSuitChoice,
          penaltyCards := ce.penaltyCards, skipTurns := ce.skipTurns }
      else if isPenaltyCard p.playedCard && isBasicMatch p.playedCard prevCard p.selectedSuit then
        calculatePenaltyAction p.playedCard prevCard p.currentPenaltyCount p.selectedSuit
      else
        { valid := false, type := .INVALID_MOVE,
          nextPlayerPenaltyCount := p.nextPlayerPenaltyCount,
          currentPenaltyCount := p.currentPenaltyCount }
    else if isAce p.playedCard || isJoker p.playedCard then
      effectWithCounts (getCardEffectAction p.playedCard p.isPenaltyActive)
    else
      effectWithCounts (getCardEffectAction p.playedCard p.isPenaltyActive)

/-! Turn orchestrator: `src/websocket/handlers/handleMove.ts`.

The handler mutates one `GameState` in place; we model it as a function
from the pre-state to the post-state plus an outcome.  External
collaborators are represented by their observable effect: `endGame`
becomes the `gameEnded` outcome, `startTimeout` becomes the
`timerStarted` flag, the notification loop keeps only its in-place
mutations of the game state (the messages themselves carry no state).
Wall-clock fields (`turnExpiresAt`, the timer handles' contents) are not
modelled; `waitTimeout` is kept as a flag recording whether a wait
timer is set. -/

/-- A sub-action of a turn request: `{type: 'DRAW'|'PLAY', v, s}`. -/
structure ActionCard where
  type : String
  v : Int
  s : String
deriving DecidableEq, Repr

/-- The per-game session state (`GameState` in `src/websocket/types`),
restricted to the fields `handleMove` reads or writes.  `players` is a
JS object keyed by participant id, modelled as an association list in
insertion order (JS object keys are unique and ordered). -/
structure GameState where
  gameId : String
  players : List (String × List Card)
  deck : List Card
  playedCards : List Card
  currentCard : Option Card
  currentTurn : String
  cuttingCard : Card
  chosenSuit : Option String
  activePenaltyCount : Int
  waitTimeout : Bool
deriving DecidableEq, Repr

/-- The payload of a MOVE message: `{gameId, from, to, cards, newSuit}`.
`from` and `to` are Lean keywords, hence `fromId` / `toId`. -/
structure MoveData where
  gameId : String
  fromId : String
  toId : String
  cards : List ActionCard
  newSuit : Option String
deriving DecidableEq, Repr

/-- Observable outcome of a `handleMove` call: an error message sent to
the submitting socket, a call to the external `endGame`, or normal
continuation of the game. -/
inductive MoveOutcome where
  | error (message : String)
  | gameEnded (winner : String) (loser : Option String) (reason : String)
  | continued
deriving DecidableEq, Repr

/-- Post-state and effects of one `handleMove` call. -/
structure MoveResult where
  state : GameState
  outcome : MoveOutcome
  timerStarted : Bool
  reshuffled : Bool
deriving DecidableEq, Repr

/-- JS `gameState.players[id]` (object property lookup). -/
def lookupPlayer (ps : List (String × List Card)) (id : String) : Option (List Card) :=
  match ps with
  | [] => none
  | p :: rest => if p.1 == id then some p.2 else lookupPlayer rest id

/-- JS `gameState.players[id] = hand`: replace the (unique) entry for `id`. -/
def updatePlayer (ps : List (String × List Card)) (id : String) (hand : List Card) :
    List (String × List Card) :=
  match ps with
  | [] => []
  | p :: rest => if p.1 == id then (p.1, hand) :: rest else p :: updatePlayer rest id hand

/-- handleMove.ts `validateDrawnCards`: the claimed drawn cards must equal
the last `n` cards of the deck (top of the stack), position by position. -/
def validateDrawnCards (deck drawnCards : List Card) : Bool :=
  if drawnCards.length > deck.length then false
  else
    let topCards := deck.drop (deck.length - drawnCards.length)
    (drawnCards.zip topCards).all fun pair =>
      pair.2.v == pair.1.v && pair.2.s == pair.1.s

/-- Modelled from the spec: `reshufflePlayedCards` lives in
`src/utils/cardUtils`, which is not among the sources.  The spec says the
non-top discard cards are shuffled and combined with the supplied deck;
the shuffle is random, so we model it as an explicit parameter `shuffle`
(theorems that need conservation assume it permutes its input). -/
def reshufflePlayedCards (shuffle : List Card → List Card) (deck cards : List Card) :
    List Card :=
  deck ++ shuffle cards

/-- Result record of `handleDeckReshuffle`. -/
structure ReshuffleResult where
  state : GameState
  reshuffled : Bool
  count : Nat
deriving DecidableEq, Repr

/-- handleMove.ts `handleDeckReshuffle`: when the deck holds at most
`minimumDeckSize = 5` cards and more than one card has been played, keep
the top played card, reshuffle the rest, and put them beneath the
remaining deck cards (the end of the list is the drawable top). -/
def handleDeckReshuffle (shuffle : List Card → List Card) (gameState : GameState) :
    ReshuffleResult :=
  if gameState.deck.length ≤ 5 ∧ gameState.playedCards.length > 1 then
    let topCard := (gameState.playedCards.getLast?).getD ⟨0, ""⟩
    let cardsToReshuffle := gameState.playedCards.dropLast
    let remainingDeckCards := gameState.deck
    let newDeck := reshufflePlayedCards shuffle [] cardsToReshuffle ++ remainingDeckCards
    { state := { gameState with deck := newDeck, playedCards := [topCard] }
      reshuffled := true
      count := cardsToReshuffle.length }
  else
    { state := gameState, reshuffled := false, count := 0 }

/-- handleMove.ts `processDrawAction`: reshuffle if needed, then remove
the drawn cards from the top of the deck (`splice(-n)`, which clamps at
the start of the array) and append the *claimed* cards to the actor's
hand.  The call to `validateDrawnCards` is commented out in the source,
so no desynchronization check happens and `success` is always true. -/
def processDrawAction (shuffle : List Card → List Card) (gameState : GameState)
    (fromId : String) (drawnCards : List Card) : GameState × Bool :=
  let r := handleDeckReshuffle shuffle gameState
  let g := r.state
  let newDeck := g.deck.take (g.deck.length - drawnCards.length)
  let hand := (lookupPlayer g.players fromId).getD []
  let g := { g with deck := newDeck
                    players := updatePlayer g.players fromId (hand ++ drawnCards) }
  (g, r.reshuffled)

/-- handleMove.ts local helper inside `processPenaltyCard`: joker value 50
counts as 5, other values count as themselves. -/
def getPenaltyValue (v : Int) : Int := if v == 50 then 5 else v

/-- The `activePenaltyCount` value computed by handleMove.ts
`processPenaltyCard` (`PENALTY_CARDS = [2, 3, 50]`; equal previous value
keeps the new value, a stronger previous value zeroes the count, a
weaker one takes the new value; a non-penalty play leaves the count
alone).  Factored out of `processPenaltyCard` so the state change is a
single record update; the branch structure mirrors the source. -/
def newActivePenaltyCount (gameState : GameState) (action : Card) : Int :=
  let isPenaltyValue : Int → Bool := fun v => v == 2 || v == 3 || v == 50
  let previousPenaltyCard : Option Card :=
    match gameState.currentCard with
    | some cc => if isPenaltyValue cc.v then some cc else none
    | none => none
  if isPenaltyValue action.v then
    let newPenaltyValue := getPenaltyValue action.v
    match previousPenaltyCard with
    | some pc =>
      let previousValue := getPenaltyValue pc.v
      if previousValue == newPenaltyValue then newPenaltyValue
      else if previousValue > newPenaltyValue then 0
      else newPenaltyValue
    | none => newPenaltyValue
  else gameState.activePenaltyCount

/-- handleMove.ts `processPenaltyCard`: the orchestrator's own inline
penalty bookkeeping (it does not call the rules.js engine); its only
mutation is of `activePenaltyCount`. -/
def processPenaltyCard (gameState : GameState) (action : Card) : GameState :=
  { gameState with activePenaltyCount := newActivePenaltyCount gameState action }

/-- Return record of `processPlayAction`. -/
structure PlayActionResult where
  isCuttingCard : Bool
  remainingCards : Nat
deriving DecidableEq, Repr

/-- handleMove.ts `processPlayAction`: clear the chosen suit, run the
inline penalty bookkeeping, detect the cutting card (value 7 in the
cutting card's suit), set the new suit if supplied, remove every copy of
the played card from the actor's hand (`filter`), and push the card onto
the discard pile.  The actor's hand is looked up with a `[]` default;
`handleMove` only reaches this after checking the actor exists. -/
def processPlayAction (gameState : GameState) (fromId : String) (action : Card)
    (newSuit : Option String) : GameState × PlayActionResult :=
  let g := if gameState.chosenSuit.isSome then { gameState with chosenSuit := none }
           else gameState
  let g := processPenaltyCard g action
  let isCuttingCard := action.v == 7 && action.s == g.cuttingCard.s
  let g := match newSuit with
           | some _ => { g with chosenSuit := newSuit }
           | none => g
  let hand := (lookupPlayer g.players fromId).getD []
  let newHand := hand.filter fun c => !(c.v == action.v && c.s == action.s)
  let g := { g with players := updatePlayer g.players fromId newHand }
  let g := { g with playedCards := g.playedCards ++ [action], currentCard := some action }
  (g, { isCuttingCard := isCuttingCard, remainingCards := newHand.length })

/-- Exit status of the play-action loop in `handleMove`: either some play
left the actor with exactly one card (`endGame` return inside the loop),
or the loop ran to completion carrying the cutting-card flag. -/
inductive PlayExit where
  | won
  | done (cuttingCardPlayed : Bool)
deriving DecidableEq, Repr

/-- The `for (const action of playActions)` loop of `handleMove`:
sequentially apply each play action; record the cutting-card flag; stop
with `PlayExit.won` as soon as a play leaves exactly one card in hand. -/
def processPlays (fromId : String) (newSuit : Option String) :
    GameState → Bool → List ActionCard → GameState × PlayExit
  | g, cutting, [] => (g, .done cutting)
  | g, cutting, a :: rest =>
    let step := processPlayAction g fromId ⟨a.v, a.s⟩ newSuit
    let cutting' := cutting || step.2.isCuttingCard
    if step.2.remainingCards == 1 then (step.1, .won)
    else processPlays fromId newSuit step.1 cutting' rest

/-- The draw phase of `handleMove`: if any DRAW sub-actions are present,
extract the claimed cards and run `processDrawAction`. -/
def drawPhase (shuffle : List Card → List Card) (gameState : GameState)
    (fromId : String) (cards : List ActionCard) : GameState × Bool :=
  let drawActions := cards.filter fun c => c.type == "DRAW"
  if drawActions.length > 0 then
    let drawnCards : List Card := drawActions.map fun a => ⟨a.v, a.s⟩
    processDrawAction shuffle gameState fromId drawnCards
  else (gameState, false)

/-- Hand value total used by the cutting-card scoring (`reduce` over `v`). -/
def handTotal (hand : List Card) : Int :=
  (hand.map (·.v)).sum

/-- Stable ascending insertion by total, modelling the stable JS
`Array.prototype.sort` with comparator `a.totalValue - b.totalValue`. -/
def insertByTotal (x : String × Int) : List (String × Int) → List (String × Int)
  | [] => [x]
  | y :: ys => if y.2 ≤ x.2 then y :: insertByTotal x ys else x :: y :: ys

/-- Stable sort of the per-player card sums. -/
def sortByTotal : List (String × Int) → List (String × Int)
  | [] => []
  | x :: xs => insertByTotal x (sortByTotal xs)

/-- In-place mutations performed inside the notification loop of
`handleMove`: for every non-DRAW card of the request (once per player
iteration, idempotent) the source reassigns `currentCard` and sets
`chosenSuit` to `newSuit` or `null`. -/
def notifyMutate (cards : List ActionCard) (newSuit : Option String)
    (gameState : GameState) : GameState :=
  if gameState.players.isEmpty then gameState
  else
    cards.foldl
      (fun g c =>
        if c.type == "DRAW" then g
        else { g with currentCard := some ⟨c.v, c.s⟩, chosenSuit := newSuit })
      gameState

/-- Tail of `handleMove` on the continue path: turn handoff
(`currentTurn = to`), timer start, the notification loop's in-place
mutations, and the final reset of `activePenaltyCount`. -/
def continueTurn (data : MoveData) (reshuffleOccurred : Bool) (g3 : GameState) :
    MoveResult :=
  let g4 := { g3 with currentTurn := data.toId }
  let g5 := notifyMutate data.cards data.newSuit g4
  let g6 := if g5.activePenaltyCount ≠ 0 then { g5 with activePenaltyCount := 0 }
            else g5
  { state := g6, outcome := .continued
    timerStarted := true, reshuffled := reshuffleOccurred }

/-- Tail of `handleMove` after the play loop: early `endGame` when a play
left one card (winner is the actor, loser the first other participant),
cutting-card scoring by lowest hand total, otherwise the continue path. -/
def finishPlays (data : MoveData) (reshuffleOccurred : Bool) :
    GameState × PlayExit → MoveResult
  | (g3, .won) =>
    let opponent := (g3.players.map (·.1)).find? fun id => id != data.fromId
    { state := g3, outcome := .gameEnded data.fromId opponent "NO_CARDS"
      timerStarted := false, reshuffled := reshuffleOccurred }
  | (g3, .done cuttingCardPlayed) =>
    if cuttingCardPlayed then
      let playerCardSums := g3.players.map fun p => (p.1, handTotal p.2)
      let sorted := sortByTotal playerCardSums
      { state := g3
        outcome := .gameEnded ((sorted.head?.map (·.1)).getD "")
          ((sorted.drop 1).head?.map (·.1)) "CUTTING_CARD"
        timerStarted := false, reshuffled := reshuffleOccurred }
    else
      continueTurn data reshuffleOccurred g3

/-- handleMove.ts `handleMove`, modelled on a session that was found in
the store (`gameStates.get`); the session-not-found reply is a pure
error with no state in scope.  Order of operations follows the source:
participant check, wait-timer clear, draw phase (with reshuffle), play
loop with early `endGame` on one remaining card, then `finishPlays`. -/
def handleMove (shuffle : List Card → List Card) (gameState : GameState)
    (data : MoveData) : MoveResult :=
  match lookupPlayer gameState.players data.fromId with
  | none =>
    { state := gameState, outcome := .error "Player not found in game"
      timerStarted := false, reshuffled := false }
  | some _ =>
    let g1 := { gameState with waitTimeout := false }
    let drawRes := drawPhase shuffle g1 data.fromId data.cards
    let playActions := data.cards.filter fun c => c.type == "PLAY"
    finishPlays data drawRes.2
      (processPlays data.fromId data.newSuit drawRes.1 false playActions)

/-- Every card currently tracked by a session: all hands, then the draw
pile, then the discard pile.  Conservation claims compare this list up
to permutation. -/
def allCardsList (g : GameState) : List Card :=
  (g.players.map (·.2)).flatten ++ g.deck ++ g.playedCards

/-- The engine verdict for playing `c` in the current context of session
`g`, per the spec's data-flow (previous card = `currentCard`, locked
suit = `chosenSuit`, pending = `activePenaltyCount`).  `handleMove`
itself never consults the engine. -/
def engineVerdictFor (g : GameState) (c : Card) : NextAction :=
  getNextAction
    { prevCard := g.currentCard
      playedCard := c
      isPenaltyActive := decide (g.activePenaltyCount > 0)
      selectedSuit := g.chosenSuit
      currentPenaltyCount := g.activePenaltyCount
      nextPlayerPenaltyCount := 0 }

/-- The play sub-actions of a turn request, as cards (the filter and the
`{v, s}` extraction `handleMove` performs). -/
def playCardsOf (cards : List ActionCard) : List Card :=
  (cards.filter fun c => c.type == "PLAY").map fun a => ⟨a.v, a.s⟩

/-- The draw sub-actions of a turn request, as the claimed cards. -/
def drawCardsOf (cards : List ActionCard) : List Card :=
  (cards.filter fun c => c.type == "DRAW").map fun a => ⟨a.v, a.s⟩

/-- A penalty card as the spec enumerates them: rank 2 or 3 in one of the
four French suits, or one of the two jokers (wire value 50, suit marker
`R`/`B`).  The spec's penalty-precedence claims quantify over this set. -/
def SpecPenaltyCard (c : Card) : Prop :=
  ((c.v = 2 ∨ c.v = 3) ∧ (c.s = "H" ∨ c.s = "D" ∨ c.s = "S" ∨ c.s = "C")) ∨
  (c.v = 50 ∧ (c.s = "R" ∨ c.s = "B"))

instance (c : Card) : Decidable (SpecPenaltyCard c) := by
  unfold SpecPenaltyCard; infer_instance

/-! Concrete sessions and requests used by counterexamples and witnesses. -/

/-- Session for the C1 counterexample: it is `p1`'s turn, the active card
is the 8 of Spades and no penalty or locked suit is in effect. -/
def gC1 : GameState :=
  { gameId := "g1"
    players := [("p1", [⟨7, "H"⟩, ⟨9, "C"⟩, ⟨4, "D"⟩]), ("p2", [⟨10, "S"⟩])]
    deck := [⟨5, "S"⟩, ⟨6, "S"⟩, ⟨12, "D"⟩, ⟨13, "D"⟩, ⟨14, "D"⟩, ⟨4, "C"⟩]
    playedCards := [⟨8, "S"⟩]
    currentCard := some ⟨8, "S"⟩
    currentTurn := "p1"
    cuttingCard := ⟨7, "S"⟩
    chosenSuit := none
    activePenaltyCount := 0
    waitTimeout := false }

/-- Turn request for the C1 counterexample: `p1` plays the 7 of Hearts on
the 8 of Spades, a move the engine rejects (no value, suit or joker
match). -/
def dC1 : MoveData :=
  { gameId := "g1", fromId := "p1", toId := "p2"
    cards := [⟨"PLAY", 7, "H"⟩], newSuit := none }

/-- Session for the C2 counterexample: `p1`'s hand holds two copies of
the 5 of Hearts. -/
def gC2 : GameState :=
  { gameId := "g2"
    players := [("p1", [⟨5, "H"⟩, ⟨5, "H"⟩, ⟨9, "C"⟩, ⟨9, "D"⟩]), ("p2", [⟨10, "S"⟩])]
    deck := [⟨6, "S"⟩]
    playedCards := [⟨5, "C"⟩]
    currentCard := some ⟨5, "C"⟩
    currentTurn := "p1"
    cuttingCard := ⟨7, "S"⟩
    chosenSuit := none
    activePenaltyCount := 0
    waitTimeout := false }

/-- Turn request for the C2 counterexample: `p1` plays one 5 of Hearts (a
legal value match), while holding two copies of it. -/
def dC2 : MoveData :=
  { gameId := "g2", fromId := "p1", toId := "p2"
    cards := [⟨"PLAY", 5, "H"⟩], newSuit := none }

/-- Session for the C2 witness: a clean turn with one draw and one play. -/
def gC2w : GameState :=
  { gameId := "g2w"
    players := [("p1", [⟨7, "H"⟩, ⟨9, "C"⟩, ⟨4, "D"⟩]), ("p2", [⟨10, "S"⟩])]
    deck := [⟨5, "S"⟩, ⟨6, "S"⟩, ⟨12, "D"⟩, ⟨13, "D"⟩, ⟨14, "D"⟩, ⟨3, "S"⟩]
    playedCards := [⟨7, "C"⟩]
    currentCard := some ⟨7, "C"⟩
    currentTurn := "p1"
    cuttingCard := ⟨7, "S"⟩
    chosenSuit := none
    activePenaltyCount := 0
    waitTimeout := false }

/-- Turn request for the C2 witness: draw the true top card (3 of
Spades), then play the 7 of Hearts, held exactly once. -/
def dC2w : MoveData :=
  { gameId := "g2w", fromId := "p1", toId := "p2"
    cards := [⟨"DRAW", 3, "S"⟩, ⟨"PLAY", 7, "H"⟩], newSuit := none }

/-- Session for the C7 failing input: the deck's true top card is the 3
of Spades and holds six cards, so no reshuffle can fire. -/
def gC7 : GameState :=
  { gameId := "g7"
    players := [("p1", [⟨5, "H"⟩]), ("p2", [⟨10, "S"⟩])]
    deck := [⟨2, "C"⟩, ⟨3, "C"⟩, ⟨4, "C"⟩, ⟨5, "C"⟩, ⟨6, "C"⟩, ⟨3, "S"⟩]
    playedCards := [⟨8, "D"⟩]
    currentCard := some ⟨8, "D"⟩
    currentTurn := "p1"
    cuttingCard := ⟨7, "S"⟩
    chosenSuit := none
    activePenaltyCount := 0
    waitTimeout := false }

/-- Turn request for the C7 failing input: the draw claims the 4 of
Hearts, which is not the top of the deck. -/
def dC7 : MoveData :=
  { gameId := "g7", fromId := "p1", toId := "p2"
    cards := [⟨"DRAW", 4, "H"⟩], newSuit := none }

/-- Session for the C8 witness: a 4-card deck and a 6-card discard pile. -/
def gC8 : GameState :=
  { gameId := "g8"
    players := [("p1", [⟨9, "H"⟩]), ("p2", [⟨10, "S"⟩])]
    deck := [⟨2, "H"⟩, ⟨3, "H"⟩, ⟨4, "H"⟩, ⟨5, "H"⟩]
    playedCards := [⟨2, "C"⟩, ⟨3, "C"⟩, ⟨4, "C"⟩, ⟨5, "C"⟩, ⟨6, "C"⟩, ⟨7, "C"⟩]
    currentCard := some ⟨7, "C"⟩
    currentTurn := "p1"
    cuttingCard := ⟨7, "S"⟩
    chosenSuit := none
    activePenaltyCount := 0
    waitTimeout := false }

/-- Session for the C9 witness: `p1` holds two cards and plays one. -/
def gC9 : GameState :=
  { gameId := "g9"
    players := [("p1", [⟨5, "H"⟩, ⟨9, "C"⟩]), ("p2", [⟨10, "S"⟩])]
    deck := [⟨6, "S"⟩, ⟨6, "C"⟩, ⟨6, "D"⟩, ⟨6, "H"⟩, ⟨12, "S"⟩, ⟨12, "C"⟩]
    playedCards := [⟨5, "C"⟩]
    currentCard := some ⟨5, "C"⟩
    currentTurn := "p1"
    cuttingCard := ⟨7, "S"⟩
    chosenSuit := none
    activePenaltyCount := 0
    waitTimeout := true }

/-- Turn request for the C9 witness: `p1` plays the 5 of Hearts, leaving
one card in hand. -/
def dC9 : MoveData :=
  { gameId := "g9", fromId := "p1", toId := "p2"
    cards := [⟨"PLAY", 5, "H"⟩], newSuit := none }

/-- State reached by the C9 witness right after the winning play. -/
def gC9post : GameState :=
  { gC9 with
    waitTimeout := false
    players := [("p1", [⟨9, "C"⟩]), ("p2", [⟨10, "S"⟩])]
    playedCards := [⟨5, "C"⟩, ⟨5, "H"⟩]
    currentCard := some ⟨5, "H"⟩ }

/-- Session for the C10 witness: `p1` plays a penalty 2 and the turn
continues. -/
def gC10 : GameState :=
  { gameId := "g10"
    players := [("p1", [⟨2, "H"⟩, ⟨9, "C"⟩, ⟨9, "D"⟩]), ("p2", [⟨10, "S"⟩])]
    deck := [⟨6, "S"⟩, ⟨6, "C"⟩, ⟨6, "D"⟩, ⟨6, "H"⟩, ⟨12, "S"⟩, ⟨12, "C"⟩]
    playedCards := [⟨5, "H"⟩]
    currentCard := some ⟨5, "H"⟩
    currentTurn := "p1"
    cuttingCard := ⟨7, "S"⟩
    chosenSuit := none
    activePenaltyCount := 0
    waitTimeout := false }

/-- Turn request for the C10 witness: `p1` plays the 2 of Hearts on the 5
of Hearts, setting a penalty of 2 mid-turn. -/
def dC10 : MoveData :=
  { gameId := "g10", fromId := "p1", toId := "p2"
    cards := [⟨"PLAY", 2, "H"⟩], newSuit := none }

/-! Helper lemmas about the spec's penalty-card set. -/

theorem specPenalty_not_master {c : Card} (h : SpecPenaltyCard c) :
    isMasterCard c = false := by
  rcases h with ⟨hv | hv, _⟩ | ⟨hv, hs | hs⟩ <;>
    simp [isMasterCard, hv]

theorem specPenalty_isPenaltyCard {c : Card} (h : SpecPenaltyCard c) :
    isPenaltyCard c = true := by
  rcases h with ⟨hv | hv, _⟩ | ⟨hv, hs | hs⟩ <;>
    simp [isPenaltyCard, isJoker, hv]

/-- C5 counterexample: the 7 of Hearts played on top of the master card
(Ace of Spades) is rejected, so it is not true that any card is a legal
play on the master card. -/
theorem any_card_on_master_counterexample :
    (getNextAction { prevCard := some MASTER_CARD, playedCard := ⟨7, "H"⟩ }).valid = false
    ∧ (getNextAction { prevCard := some MASTER_CARD, playedCard := ⟨7, "H"⟩ }).type =
        NextActionType.INVALID_MOVE := by
  decide

/-- C5 (amended): the master card is always a legal play — on any
previous card, in any penalty/suit context, including the first move —
and its verdict always carries zero penalty counts for both players, so
an active penalty is cancelled entirely. -/
theorem master_card_always_legal_and_cancels
    (prev : Option Card) (active : Bool) (suit : Option String) (cnt npc : Int) :
    (getNextAction
        { prevCard := prev
          playedCard := MASTER_CARD
          isPenaltyActive := active
          selectedSuit := suit
          currentPenaltyCount := cnt
          nextPlayerPenaltyCount := npc }).valid = true
    ∧ (getNextAction
        { prevCard := prev
          playedCard := MASTER_CARD
          isPenaltyActive := active
          selectedSuit := suit
          currentPenaltyCount := cnt
          nextPlayerPenaltyCount := npc }).nextPlayerPenaltyCount = 0
    ∧ (getNextAction
        { prevCard := prev
          playedCard := MASTER_CARD
          isPenaltyActive := active
          selectedSuit := suit
          currentPenaltyCount := cnt
          nextPlayerPenaltyCount := npc }).currentPenaltyCount = 0 := by
  cases prev with
  | none =>
    cases active <;>
      simp [getNextAction, effectWithCounts, getCardEffectAction, MASTER_CARD,
        isJoker, isMasterCard, isAce]
  | some pc =>
    cases active with
    | false =>
      simp [getNextAction, effectWithCounts, getCardEffectAction, MASTER_CARD,
        isJoker, isMasterCard, isAce]
    | true =>
      by_cases hc : cnt > 0 <;>
        simp [getNextAction, effectWithCounts, getCardEffectAction, MASTER_CARD,
          isJoker, isMasterCard, isAce, hc]

/-- C6 counterexample: with `isPenaltyActive = true` but
`currentPenaltyCount = 0` — which the claim places in the
no-active-penalty branch — a plain Ace is a valid play but yields
`END_TURN`, not `CHOOSE_SUIT`. -/
theorem ace_choose_suit_counterexample :
    (getNextAction
        { prevCard := some ⟨7, "H"⟩
          playedCard := ⟨15, "H"⟩
          isPenaltyActive := true }).valid = true
    ∧ (getNextAction
        { prevCard := some ⟨7, "H"⟩
          playedCard := ⟨15, "H"⟩
          isPenaltyActive := true }).type = NextActionType.END_TURN := by
  decide

/-- C6 (amended): when `isPenaltyActive` is false, every valid play of an
Ace or a joker yields the `CHOOSE_SUIT` verdict requiring a suit input;
a joker sets the next player's penalty to 5, an Ace sets none. -/
theorem ace_joker_choose_suit_when_no_penalty
    (prev : Option Card) (played : Card) (suit : Option String) (cnt npc : Int)
    (hspecial : (isAce played || isJoker played) = true)
    (hvalid : (getNextAction
        { prevCard := prev
          playedCard := played
          isPenaltyActive := false
          selectedSuit := suit
          currentPenaltyCount := cnt
          nextPlayerPenaltyCount := npc }).valid = true) :
    (getNextAction
        { prevCard := prev
          playedCard := played
          isPenaltyActive := false
          selectedSuit := suit
          currentPenaltyCount := cnt
          nextPlayerPenaltyCount := npc }) =
      { valid := true, type := .CHOOSE_SUIT, allowSuitChoice := true
        nextPlayerPenaltyCount := if isJoker played then 5 else 0
        currentPenaltyCount := 0
        penaltyCards := if isJoker played then some 5 else none } := by
  have heff : getCardEffectAction played false =
      { type := .CHOOSE_SUIT, allowSuitChoice := true
        penaltyCards := if isJoker played then some 5 else none } := by
    rcases Bool.or_eq_true _ _ |>.mp hspecial with hace | hjok
    · by_cases hj : isJoker played = true
      · simp [getCardEffectAction, hj, JOKER_PENALTY_VALUE]
      · simp [getCardEffectAction, hj, hace, isMasterCard, isAce] at *
        simp [hace, JOKER_PENALTY_VALUE]
    · simp [getCardEffectAction, hjok, JOKER_PENALTY_VALUE]
  cases prev with
  | none =>
    simp only [getNextAction] at hvalid ⊢
    rw [heff]
    cases hj : isJoker played <;> simp [effectWithCounts, hj]
  | some pc =>
    have hres : (getNextAction
        { prevCard := some pc
          playedCard := played
          isPenaltyActive := false
          selectedSuit := suit
          currentPenaltyCount := cnt
          nextPlayerPenaltyCount := npc }) =
        effectWithCounts (getCardEffectAction played false) := by
      by_cases hv : (isBasicMatch played pc suit || isMasterCard played ||
          (suit.isSome && played.s == suit.getD "") ||
          isValidJokerMove played pc suit || isAce played) = true
      · simp [getNextAction, hv]
      · exfalso
        simp only [getNextAction] at hvalid
        rw [Bool.not_eq_true] at hv
        simp [hv] at hvalid
    rw [hres, heff]
    cases hj : isJoker played <;> simp [effectWithCounts, hj]

theorem specPenalty_value_eq_weight_eq {a b : Card}
    (ha : SpecPenaltyCard a) (hb : SpecPenaltyCard b) (hv : a.v = b.v) :
    getCardPenaltyValue a = getCardPenaltyValue b := by
  have notJoker : ∀ c : Card, (c.s = "H" ∨ c.s = "D" ∨ c.s = "S" ∨ c.s = "C") →
      isJoker c = false := by
    intro c hc
    rcases hc with h | h | h | h <;> simp [isJoker, h]
  have joker : ∀ c : Card, (c.s = "R" ∨ c.s = "B") → isJoker c = true := by
    intro c hc
    rcases hc with h | h <;> simp [isJoker, h]
  rcases ha with ⟨hav, has⟩ | ⟨hav, has⟩ <;> rcases hb with ⟨hbv, hbs⟩ | ⟨hbv, hbs⟩
  · simp [getCardPenaltyValue, notJoker a has, notJoker b hbs, hv]
  · rcases hav with h | h <;> rw [hbv] at hv <;> omega
  · rcases hbv with h | h <;> rw [hav] at hv <;> omega
  · simp [getCardPenaltyValue, joker a has, joker b hbs]

/-- C3: during an active penalty, a penalty card (2, 3 or joker; a
joker weighs 5) played on a penalty card of the same weight that
basic-matches the previous card always yields `TRANSFER_PENALTY` with
the next player's penalty equal to the played card's weight and the
current pending count reset to 0 — never `REDUCE_PENALTY`. -/
theorem equal_weight_penalty_transfers
    (prev played : Card) (suit : Option String) (cnt npc : Int)
    (hprev : SpecPenaltyCard prev) (hplayed : SpecPenaltyCard played)
    (hw : getCardPenaltyValue prev = getCardPenaltyValue played)
    (hbm : isBasicMatch played prev suit = true)
    (hcnt : 0 < cnt) :
    getNextAction
        { prevCard := some prev
          playedCard := played
          isPenaltyActive := true
          selectedSuit := suit
          currentPenaltyCount := cnt
          nextPlayerPenaltyCount := npc } =
      { valid := true, type := .TRANSFER_PENALTY
        nextPlayerPenaltyCount := getCardPenaltyValue played
        currentPenaltyCount := 0 } := by
  have hmaster := specPenalty_not_master hplayed
  have hpp := specPenalty_isPenaltyCard hplayed
  have hpq := specPenalty_isPenaltyCard hprev
  simp only [getNextAction]
  simp only [hbm, Bool.true_or, Bool.not_true, Bool.false_eq_true, if_false]
  rw [if_pos (by simpa using hcnt), if_neg (by simp [hmaster]),
    if_pos (by simp [hpp, hbm])]
  simp [calculatePenaltyAction, hpq, hw]

/-- C4: during an active penalty, when a penalty card is played on a
previous penalty card of the reference suit with strictly greater
weight (and the play basic-matches), the verdict is `REDUCE_PENALTY`
with remaining `max (pending − playedWeight) 0`, the played-side draw
count equal to that remaining value, and the next player's penalty 0. -/
theorem same_suit_prev_stronger_reduces
    (prev played : Card) (suit : Option String) (cnt npc : Int)
    (hprev : SpecPenaltyCard prev) (hplayed : SpecPenaltyCard played)
    (href : prev.s = suit.getD prev.s)
    (hlt : getCardPenaltyValue played < getCardPenaltyValue prev)
    (hbm : isBasicMatch played prev suit = true)
    (hcnt : 0 < cnt) :
    getNextAction
        { prevCard := some prev
          playedCard := played
          isPenaltyActive := true
          selectedSuit := suit
          currentPenaltyCount := cnt
          nextPlayerPenaltyCount := npc } =
      { valid := true, type := .REDUCE_PENALTY
        nextPlayerPenaltyCount := 0
        currentPenaltyCount := max (cnt - getCardPenaltyValue played) 0
        drawCards := some (max (cnt - getCardPenaltyValue played) 0) } := by
  have hmaster := specPenalty_not_master hplayed
  have hpp := specPenalty_isPenaltyCard hplayed
  have hpq := specPenalty_isPenaltyCard hprev
  have hmatch : ((suit.getD prev.s) == played.s) = true ∨
      isValidJokerMove played prev suit = true := by
    cases suit with
    | some s =>
      left
      have hs : played.s = s := by simpa [isBasicMatch] using hbm
      simp [hs]
    | none =>
      have hbm' := hbm
      simp only [isBasicMatch, Bool.or_eq_true] at hbm'
      rcases hbm' with (hvv | hss) | hjm
      · exfalso
        have := specPenalty_value_eq_weight_eq hplayed hprev (by simpa using hvv)
        omega
      · left
        have : played.s = prev.s := by simpa using hss
        simp [this]
      · right; exact hjm
  simp only [getNextAction]
  simp only [hbm, Bool.true_or, Bool.not_true, Bool.false_eq_true, if_false]
  rw [if_pos (by simpa using hcnt), if_neg (by simp [hmaster]),
    if_pos (by simp [hpp, hbm])]
  simp only [calculatePenaltyAction]
  split_ifs with c1 c2 c3 c4 c5
  · exfalso
    simp only [Bool.and_eq_true, beq_iff_eq] at c1
    omega
  · exfalso
    simp only [Bool.and_eq_true, beq_iff_eq, decide_eq_true_eq] at c2
    omega
  · rfl
  · exfalso
    simp only [Bool.and_eq_true, beq_iff_eq, decide_eq_true_eq] at c4
    omega
  · rfl
  · exfalso
    rcases hmatch with hm | hm
    · refine c3 ?_
      simp only [Bool.and_eq_true, decide_eq_true_eq]
      exact ⟨⟨hpq, hm⟩, hpq, hlt⟩
    · refine c5 ?_
      simp only [Bool.and_eq_true, decide_eq_true_eq]
      exact ⟨hm, hpq, hlt⟩

/-- Witness for C3: a 2 of Diamonds on a 2 of Hearts with two cards
pending transfers a two-card penalty (equal weight, value match). -/
theorem equal_weight_penalty_transfers_witness :
    getNextAction
        { prevCard := some ⟨2, "H"⟩
          playedCard := ⟨2, "D"⟩
          isPenaltyActive := true
          selectedSuit := none
          currentPenaltyCount := 2
          nextPlayerPenaltyCount := 0 } =
      { valid := true, type := .TRANSFER_PENALTY
        nextPlayerPenaltyCount := 2, currentPenaltyCount := 0 } := by
  have h := equal_weight_penalty_transfers ⟨2, "H"⟩ ⟨2, "D"⟩ none 2 0
    (by decide) (by decide) (by decide) (by decide) (by decide)
  exact h.trans (by decide)

/-- Witness for C4, the claim's own example: a 2 of Hearts on a 3 of
Hearts with five pending reduces to three, drawn by the acting player. -/
theorem same_suit_prev_stronger_reduces_witness :
    getNextAction
        { prevCard := some ⟨3, "H"⟩
          playedCard := ⟨2, "H"⟩
          isPenaltyActive := true
          selectedSuit := none
          currentPenaltyCount := 5
          nextPlayerPenaltyCount := 0 } =
      { valid := true, type := .REDUCE_PENALTY
        nextPlayerPenaltyCount := 0, currentPenaltyCount := 3
        drawCards := some 3 } := by
  have h := same_suit_prev_stronger_reduces ⟨3, "H"⟩ ⟨2, "H"⟩ none 5 0
    (by decide) (by decide) (by decide) (by decide) (by decide) (by decide)
  exact h.trans (by decide)

/-- Witness for C6: a red joker on a 7 of Hearts with no penalty active
yields `CHOOSE_SUIT` and seeds a five-card penalty. -/
theorem ace_joker_choose_suit_when_no_penalty_witness :
    getNextAction
        { prevCard := some ⟨7, "H"⟩
          playedCard := ⟨50, "R"⟩
          isPenaltyActive := false
          selectedSuit := none
          currentPenaltyCount := 0
          nextPlayerPenaltyCount := 0 } =
      { valid := true, type := .CHOOSE_SUIT, allowSuitChoice := true
        nextPlayerPenaltyCount := 5, currentPenaltyCount := 0
        penaltyCards := some 5 } := by
  have h := ace_joker_choose_suit_when_no_penalty (some ⟨7, "H"⟩) ⟨50, "R"⟩ none 0 0
    (by decide) (by decide)
  exact h.trans (by decide)

/-! Structural lemmas about the orchestrator's helpers. -/

theorem processPlayAction_eq (g : GameState) (fromId : String) (c : Card)
    (ns : Option String) :
    processPlayAction g fromId c ns =
      ({ g with
          chosenSuit := ns
          activePenaltyCount := newActivePenaltyCount g c
          players := updatePlayer g.players fromId
            (((lookupPlayer g.players fromId).getD []).filter
              fun x => !(x.v == c.v && x.s == c.s))
          playedCards := g.playedCards ++ [c]
          currentCard := some c },
        { isCuttingCard := c.v == 7 && c.s == g.cuttingCard.s
          remainingCards := (((lookupPlayer g.players fromId).getD []).filter
            fun x => !(x.v == c.v && x.s == c.s)).length }) := by
  unfold processPlayAction processPenaltyCard
  cases hcs : g.chosenSuit <;> cases ns <;>
    first
      | rfl
      | simp [hcs]

theorem notifyMutate_fields (cards : List ActionCard) (ns : Option String)
    (g : GameState) :
    (notifyMutate cards ns g).players = g.players
    ∧ (notifyMutate cards ns g).deck = g.deck
    ∧ (notifyMutate cards ns g).playedCards = g.playedCards
    ∧ (notifyMutate cards ns g).activePenaltyCount = g.activePenaltyCount
    ∧ (notifyMutate cards ns g).currentTurn = g.currentTurn := by
  unfold notifyMutate
  split
  · exact ⟨rfl, rfl, rfl, rfl, rfl⟩
  · clear * -
    induction cards generalizing g with
    | nil => exact ⟨rfl, rfl, rfl, rfl, rfl⟩
    | cons c rest ih =>
      simp only [List.foldl_cons]
      split
      · exact ih g
      · exact ih _

theorem processPlays_currentTurn (fromId : String) (ns : Option String) :
    ∀ (acts : List ActionCard) (g : GameState) (cut : Bool),
      (processPlays fromId ns g cut acts).1.currentTurn = g.currentTurn := by
  intro acts
  induction acts with
  | nil => intro g cut; rfl
  | cons a rest ih =>
    intro g cut
    simp only [processPlays]
    split
    · rw [processPlayAction_eq]
    · rw [ih, processPlayAction_eq]

theorem lookupPlayer_update_self (ps : List (String × List Card)) (id : String)
    (h hand : List Card) (hl : lookupPlayer ps id = some hand) :
    lookupPlayer (updatePlayer ps id h) id = some h := by
  induction ps with
  | nil => simp [lookupPlayer] at hl
  | cons p rest ih =>
    by_cases hp : (p.1 == id) = true
    · simp [lookupPlayer, updatePlayer, hp]
    · have h1 : updatePlayer (p :: rest) id h = p :: updatePlayer rest id h := by
        simp only [updatePlayer]
        rw [if_neg hp]
      have h2 : lookupPlayer (p :: rest) id = lookupPlayer rest id := by
        simp only [lookupPlayer]
        rw [if_neg hp]
      rw [h1]
      simp only [lookupPlayer]
      rw [if_neg hp]
      exact ih (h2.symm.trans hl)

/-- C7 (code bug): a draw claiming the 4 of Hearts while the true top of
the deck is the 3 of Spades fails `validateDrawnCards`, yet `handleMove`
reports no error: the turn continues, the claimed card enters the hand,
and the true top card leaves the deck (the validation call is commented
out in the source, though the handler's own tests expect the error). -/
theorem desync_draw_not_rejected :
    validateDrawnCards gC7.deck [⟨4, "H"⟩] = false
    ∧ (handleMove id gC7 dC7).outcome = .continued
    ∧ lookupPlayer (handleMove id gC7 dC7).state.players "p1" =
        some [⟨5, "H"⟩, ⟨4, "H"⟩]
    ∧ (handleMove id gC7 dC7).state.deck =
        [⟨2, "C"⟩, ⟨3, "C"⟩, ⟨4, "C"⟩, ⟨5, "C"⟩, ⟨6, "C"⟩] := by
  decide

/-- C10: whenever `handleMove` finishes with the game continuing (no win
and no cutting card), the stored session's `activePenaltyCount` is 0 —
the handler zeroes any penalty recorded during the turn right after the
notifications go out, so it never survives into the next turn. -/
theorem continueTurn_apc (d : MoveData) (r : Bool) (g3 : GameState) :
    (continueTurn d r g3).state.activePenaltyCount = 0 := by
  simp only [continueTurn]
  split
  · rfl
  · next happ => simpa using happ

theorem penalty_reset_on_continue (shuffle : List Card → List Card)
    (g : GameState) (d : MoveData)
    (h : (handleMove shuffle g d).outcome = .continued) :
    (handleMove shuffle g d).state.activePenaltyCount = 0 := by
  unfold handleMove at h ⊢
  cases hl : lookupPlayer g.players d.fromId with
  | none => simp [hl] at h
  | some hand =>
    simp only [hl] at h ⊢
    rcases hp : processPlays d.fromId d.newSuit
        (drawPhase shuffle { g with waitTimeout := false } d.fromId d.cards).1 false
        (d.cards.filter fun c => c.type == "PLAY") with ⟨g3, ex⟩
    rw [hp] at h
    cases ex with
    | won => simp [finishPlays] at h
    | done cutting =>
      cases cutting with
      | true => simp [finishPlays] at h
      | false => simpa [finishPlays] using continueTurn_apc d _ g3

/-- Witness for C10: `p1` plays a 2 on a 5 of Hearts; the inline penalty
bookkeeping records a two-card penalty mid-turn, yet the stored state
ends the call with `activePenaltyCount = 0` and the game continuing. -/
theorem penalty_reset_on_continue_witness :
    (handleMove id gC10 dC10).state.activePenaltyCount = 0 :=
  penalty_reset_on_continue id gC10 dC10 (by decide)

theorem continueTurn_state (d : MoveData) (r : Bool) (g3 : GameState) :
    (continueTurn d r g3).state.players = g3.players
    ∧ (continueTurn d r g3).state.deck = g3.deck
    ∧ (continueTurn d r g3).state.playedCards = g3.playedCards := by
  simp only [continueTurn]
  split
  · exact ⟨(notifyMutate_fields _ _ _).1, (notifyMutate_fields _ _ _).2.1,
      (notifyMutate_fields _ _ _).2.2.1⟩
  · exact ⟨(notifyMutate_fields _ _ _).1, (notifyMutate_fields _ _ _).2.1,
      (notifyMutate_fields _ _ _).2.2.1⟩

theorem finishPlays_state (d : MoveData) (r : Bool) (p : GameState × PlayExit) :
    (finishPlays d r p).state.players = p.1.players
    ∧ (finishPlays d r p).state.deck = p.1.deck
    ∧ (finishPlays d r p).state.playedCards = p.1.playedCards := by
  rcases p with ⟨st, ex⟩
  cases ex with
  | won => exact ⟨rfl, rfl, rfl⟩
  | done cutting =>
    cases cutting with
    | false => exact continueTurn_state d r st
    | true => exact ⟨rfl, rfl, rfl⟩

/-- C9: a play that leaves exactly one card in the actor's hand ends the
turn immediately.  First conjunct: the play loop stops at that action —
the remaining play sub-actions are never processed.  Second conjunct:
`handleMove` then returns the mid-loop state unchanged with the actor
declared winner over the first other participant (`NO_CARDS`) and no
timer start.  Third conjunct: the play loop never reassigns
`currentTurn`, so no turn handoff has happened either. -/
theorem win_on_one_card_ends_turn :
    (∀ (fromId : String) (ns : Option String) (g : GameState) (a : ActionCard)
        (rest : List ActionCard) (cut : Bool),
      (processPlayAction g fromId ⟨a.v, a.s⟩ ns).2.remainingCards = 1 →
      processPlays fromId ns g cut (a :: rest) =
        ((processPlayAction g fromId ⟨a.v, a.s⟩ ns).1, .won))
    ∧ (∀ (shuffle : List Card → List Card) (g : GameState) (d : MoveData)
        (g3 : GameState),
      (lookupPlayer g.players d.fromId).isSome = true →
      processPlays d.fromId d.newSuit
          (drawPhase shuffle { g with waitTimeout := false } d.fromId d.cards).1 false
          (d.cards.filter fun c => c.type == "PLAY") = (g3, .won) →
      handleMove shuffle g d =
        { state := g3
          outcome := .gameEnded d.fromId
            ((g3.players.map (·.1)).find? fun id => id != d.fromId) "NO_CARDS"
          timerStarted := false
          reshuffled :=
            (drawPhase shuffle { g with waitTimeout := false } d.fromId d.cards).2 })
    ∧ (∀ (fromId : String) (ns : Option String) (acts : List ActionCard)
        (g : GameState) (cut : Bool),
      (processPlays fromId ns g cut acts).1.currentTurn = g.currentTurn) := by
  refine ⟨?_, ?_, ?_⟩
  · intro fromId ns g a rest cut h
    simp only [processPlays]
    simp [h]
  · intro shuffle g d g3 hmem hw
    obtain ⟨hand, hl⟩ := Option.isSome_iff_exists.mp hmem
    simp only [handleMove, hl]
    rw [hw]
    rfl
  · intro fromId ns acts g cut
    exact processPlays_currentTurn fromId ns acts g cut

/-- Witness for C9: `p1` holds two cards, plays one, and the call ends
the game at once with `p1` the winner; the timer is not restarted and
`currentTurn` still reads `p1`. -/
theorem win_on_one_card_ends_turn_witness :
    handleMove id gC9 dC9 =
      { state := gC9post
        outcome := .gameEnded "p1" (some "p2") "NO_CARDS"
        timerStarted := false, reshuffled := false } := by
  have h := win_on_one_card_ends_turn.2.1 id gC9 dC9 gC9post (by decide) (by decide)
  exact h.trans (by decide)

/-- C1 counterexample: the engine classifies `p1`'s 7 of Hearts on the 8
of Spades as `INVALID_MOVE`, yet `handleMove` applies the turn anyway:
the resulting session differs from the original and the call reports no
error (the outcome is a normal continuation). -/
theorem invalid_move_counterexample :
    (engineVerdictFor gC1 ⟨7, "H"⟩).valid = false
    ∧ (engineVerdictFor gC1 ⟨7, "H"⟩).type = NextActionType.INVALID_MOVE
    ∧ (handleMove id gC1 dC1).state ≠ gC1
    ∧ (handleMove id gC1 dC1).outcome = .continued := by
  decide

/-- C1 (amended): `handleMove` never consults the Legality & Penalty
Engine; when the session and actor exist, a single play sub-action the
engine would classify `INVALID_MOVE` is still applied — the played card
is appended to the discard pile and the session state changes. -/
theorem invalid_play_still_mutates
    (shuffle : List Card → List Card) (g : GameState) (d : MoveData) (a : ActionCard)
    (hmem : (lookupPlayer g.players d.fromId).isSome = true)
    (hcards : d.cards = [a]) (htype : a.type = "PLAY")
    (hinvalid : (engineVerdictFor g ⟨a.v, a.s⟩).valid = false) :
    (handleMove shuffle g d).state.playedCards = g.playedCards ++ [⟨a.v, a.s⟩]
    ∧ (handleMove shuffle g d).state ≠ g := by
  have hmain : (handleMove shuffle g d).state.playedCards =
      g.playedCards ++ [⟨a.v, a.s⟩] := by
    obtain ⟨hand, hl⟩ := Option.isSome_iff_exists.mp hmem
    have hdraw : drawPhase shuffle { g with waitTimeout := false } d.fromId d.cards =
        ({ g with waitTimeout := false }, false) := by
      unfold drawPhase
      rw [hcards]
      simp [htype]
    have hplays : d.cards.filter (fun c => c.type == "PLAY") = [a] := by
      rw [hcards]
      simp [htype]
    have hsingle : ∀ (g' : GameState) (cut : Bool),
        (processPlays d.fromId d.newSuit g' cut [a]).1.playedCards =
          g'.playedCards ++ [⟨a.v, a.s⟩] := by
      intro g' cut
      simp only [processPlays, processPlayAction_eq]
      split
      · rfl
      · rfl
    simp only [handleMove, hl]
    rw [hdraw, hplays]
    rw [(finishPlays_state d _ _).2.2]
    rw [hsingle _ false]
  refine ⟨hmain, fun hEq => ?_⟩
  have hlen := congrArg (fun s => s.playedCards.length) hEq
  simp only [hmain] at hlen
  simp only [List.length_append, List.length_cons, List.length_nil] at hlen
  omega

/-- Witness for C1's amended statement at the concrete counterexample
session: the 7 of Hearts lands on the discard pile although the engine
rejects it, and the session is mutated. -/
theorem invalid_play_still_mutates_witness :
    (handleMove id gC1 dC1).state.playedCards = gC1.playedCards ++ [⟨7, "H"⟩]
    ∧ (handleMove id gC1 dC1).state ≠ gC1 :=
  invalid_play_still_mutates id gC1 dC1 ⟨"PLAY", 7, "H"⟩
    (by decide) (by decide) (by decide) (by decide)

/-! List-level lemmas for the conservation argument (C2, C8). -/

theorem playPred_self (c : Card) : (!(c.v == c.v && c.s == c.s)) = false := by
  simp

theorem playPred_ne (x c : Card) (h : x ≠ c) :
    (!(x.v == c.v && x.s == c.s)) = true := by
  by_cases h1 : x.v = c.v
  · have h2 : x.s ≠ c.s := by
      intro h2
      rcases x with ⟨xv, xs⟩
      rcases c with ⟨cv, cs⟩
      exact h (by simp_all)
    have hb : (x.s == c.s) = false := beq_eq_false_iff_ne.mpr h2
    simp [h1, hb]
  · have hb : (x.v == c.v) = false := beq_eq_false_iff_ne.mpr h1
    simp [hb]

theorem count_one_perm (l : List Card) (c : Card) (h : l.count c = 1) :
    l.Perm (c :: l.filter (fun x => !(x.v == c.v && x.s == c.s))) := by
  induction l with
  | nil => simp at h
  | cons x xs ih =>
    by_cases hx : x = c
    · subst hx
      have hcnt : xs.count x = 0 := by
        rw [List.count_cons_self] at h
        omega
      have hnotmem : x ∉ xs := List.count_eq_zero.mp hcnt
      have hfil : xs.filter (fun y => !(y.v == x.v && y.s == x.s)) = xs := by
        rw [List.filter_eq_self]
        intro a ha
        exact playPred_ne a x fun heq => hnotmem (heq ▸ ha)
      rw [List.filter_cons, playPred_self]
      rw [if_neg (by simp)]
      rw [hfil]
    · have hcx : c ≠ x := fun hcc => hx hcc.symm
      have hcnt : xs.count c = 1 := by
        rw [List.count_cons_of_ne hcx] at h
        exact h
      have hstep := ih hcnt
      rw [List.filter_cons, playPred_ne x c hx]
      simp only [if_true]
      exact List.Perm.trans (hstep.cons x) (List.Perm.swap c x _)

theorem count_filter_play (l : List Card) (c c' : Card) (h : c' ≠ c) :
    (l.filter (fun x => !(x.v == c.v && x.s == c.s))).count c' = l.count c' := by
  induction l with
  | nil => rfl
  | cons x xs ih =>
    rw [List.filter_cons]
    by_cases hx : x = c
    · have hb : (!(x.v == c.v && x.s == c.s)) = false := by
        subst hx
        exact playPred_self x
      rw [hb]
      rw [if_neg (by simp)]
      rw [ih, List.count_cons]
      have hne1 : ¬ c' = x := fun hcc => h (hcc.trans hx)
      have hne2 : ¬ x = c' := fun hcc => hne1 hcc.symm
      simp [hne1, hne2]
    · rw [playPred_ne x c hx]
      simp only [if_true]
      rw [List.count_cons, List.count_cons, ih]

theorem zip_all_card_eq :
    ∀ (l₁ l₂ : List Card), l₁.length = l₂.length →
      ((l₁.zip l₂).all fun p => p.2.v == p.1.v && p.2.s == p.1.s) = true →
      l₁ = l₂ := by
  intro l₁
  induction l₁ with
  | nil =>
    intro l₂ h _
    cases l₂ with
    | nil => rfl
    | cons y ys => simp at h
  | cons x xs ih =>
    intro l₂ h hall
    cases l₂ with
    | nil => simp at h
    | cons y ys =>
      simp only [List.zip_cons_cons, List.all_cons, Bool.and_eq_true, beq_iff_eq] at hall
      obtain ⟨⟨hv, hs⟩, hrest⟩ := hall
      have hxy : x = y := by
        rcases x with ⟨xv, xs'⟩
        rcases y with ⟨yv, ys'⟩
        simp only at hv hs
        simp [hv, hs]
      have hlen : xs.length = ys.length := by
        simpa using h
      rw [hxy, ih ys hlen hrest]

theorem validateDrawnCards_spec (deck drawn : List Card)
    (h : validateDrawnCards deck drawn = true) :
    drawn.length ≤ deck.length ∧ drawn = deck.drop (deck.length - drawn.length) := by
  unfold validateDrawnCards at h
  by_cases hlen : drawn.length > deck.length
  · rw [if_pos hlen] at h
    simp at h
  · rw [if_neg hlen] at h
    refine ⟨le_of_not_lt hlen, ?_⟩
    have hlen2 : drawn.length = (deck.drop (deck.length - drawn.length)).length := by
      rw [List.length_drop]
      omega
    exact zip_all_card_eq drawn _ hlen2 h

theorem dropLast_getLast_append (l : List Card) (h : 1 < l.length) :
    l.dropLast ++ [(l.getLast?).getD ⟨0, ""⟩] = l := by
  have hne : l ≠ [] := by
    intro hnil
    rw [hnil] at h
    simp at h
  rw [List.getLast?_eq_getLast_of_ne_nil hne]
  simp only [Option.getD_some]
  exact List.dropLast_append_getLast hne

theorem handleDeckReshuffle_players (shuffle : List Card → List Card)
    (g : GameState) :
    (handleDeckReshuffle shuffle g).state.players = g.players := by
  unfold handleDeckReshuffle
  split <;> rfl

theorem reshuffle_conserves (shuffle : List Card → List Card) (g : GameState)
    (hsh : ∀ l, (shuffle l).Perm l) :
    ((allCardsList (handleDeckReshuffle shuffle g).state : List Card) : Multiset Card) =
      (allCardsList g : Multiset Card) := by
  unfold handleDeckReshuffle
  split
  · next hcond =>
    simp only [allCardsList, reshufflePlayedCards, List.nil_append]
    simp only [← Multiset.coe_add]
    have h1 : ((shuffle g.playedCards.dropLast : List Card) : Multiset Card) =
        (g.playedCards.dropLast : Multiset Card) :=
      Multiset.coe_eq_coe.mpr (hsh _)
    have h2 : ((g.playedCards.dropLast : List Card) : Multiset Card) +
        (([(g.playedCards.getLast?).getD ⟨0, ""⟩] : List Card) : Multiset Card) =
        (g.playedCards : Multiset Card) := by
      rw [Multiset.coe_add, dropLast_getLast_append g.playedCards hcond.2]
    rw [h1, ← h2]
    abel
  · rfl

theorem update_flatten_decomp (ps : List (String × List Card)) (id : String)
    (h : List Card) (hl : lookupPlayer ps id = some h) :
    ∃ m : Multiset Card,
      (((ps.map (·.2)).flatten : List Card) : Multiset Card) = m + (h : Multiset Card)
      ∧ ∀ h' : List Card,
        ((((updatePlayer ps id h').map (·.2)).flatten : List Card) : Multiset Card) =
          m + (h' : Multiset Card) := by
  induction ps with
  | nil => simp [lookupPlayer] at hl
  | cons p rest ih =>
    by_cases hp : (p.1 == id) = true
    · simp only [lookupPlayer, hp, if_true, Option.some.injEq] at hl
      refine ⟨(((rest.map (·.2)).flatten : List Card) : Multiset Card), ?_, ?_⟩
      · simp only [List.map_cons, List.flatten_cons, ← Multiset.coe_add, ← hl]
        abel
      · intro h'
        simp only [updatePlayer, hp, if_true, List.map_cons, List.flatten_cons,
          ← Multiset.coe_add]
        abel
    · simp only [lookupPlayer, hp, Bool.false_eq_true, if_false] at hl
      obtain ⟨m, hm1, hm2⟩ := ih hl
      refine ⟨(p.2 : Multiset Card) + m, ?_, ?_⟩
      · simp only [List.map_cons, List.flatten_cons, ← Multiset.coe_add, hm1]
        abel
      · intro h'
        simp only [updatePlayer, hp, Bool.false_eq_true, if_false, List.map_cons,
          List.flatten_cons, ← Multiset.coe_add, hm2 h']
        abel

theorem drawPhase_conserves (shuffle : List Card → List Card) (g1 : GameState)
    (fromId : String) (cards : List ActionCard) (hand : List Card)
    (hsh : ∀ l, (shuffle l).Perm l)
    (hl : lookupPlayer g1.players fromId = some hand)
    (hdraw : validateDrawnCards (handleDeckReshuffle shuffle g1).state.deck
      (drawCardsOf cards) = true) :
    ((allCardsList (drawPhase shuffle g1 fromId cards).1 : List Card) : Multiset Card) =
      (allCardsList g1 : Multiset Card)
    ∧ lookupPlayer (drawPhase shuffle g1 fromId cards).1.players fromId =
        some (hand ++ drawCardsOf cards) := by
  by_cases hpos : (cards.filter fun c => c.type == "DRAW").length > 0
  · simp only [drawPhase, if_pos hpos]
    unfold processDrawAction
    have hlk : lookupPlayer (handleDeckReshuffle shuffle g1).state.players fromId =
        some hand := by
      rw [handleDeckReshuffle_players]
      exact hl
    obtain ⟨hlen, hdrop⟩ := validateDrawnCards_spec _ _ hdraw
    obtain ⟨m, hm1, hm2⟩ := update_flatten_decomp _ _ _ hlk
    have hdecksplit : (((handleDeckReshuffle shuffle g1).state.deck : List Card) : Multiset Card) =
        (((handleDeckReshuffle shuffle g1).state.deck.take
            ((handleDeckReshuffle shuffle g1).state.deck.length -
              (drawCardsOf cards).length) : List Card) : Multiset Card) +
          ((drawCardsOf cards : List Card) : Multiset Card) := by
      rw [Multiset.coe_add]
      congr 1
      conv_lhs => rw [← List.take_append_drop
        ((handleDeckReshuffle shuffle g1).state.deck.length - (drawCardsOf cards).length)
        (handleDeckReshuffle shuffle g1).state.deck]
      rw [← hdrop]
    constructor
    · rw [← reshuffle_conserves shuffle g1 hsh]
      simp only [allCardsList, hlk, Option.getD_some]
      simp only [← Multiset.coe_add]
      rw [hm2, hm1, hdecksplit]
      simp only [← Multiset.coe_add]
      simp only [drawCardsOf]
      abel
    · simp only [hlk, Option.getD_some]
      exact lookupPlayer_update_self _ _ _ _ hlk
  · simp only [drawPhase, if_neg hpos]
    have hfil : cards.filter (fun c => c.type == "DRAW") = [] := by
      have := Nat.eq_zero_of_not_pos hpos
      exact List.length_eq_zero.mp this
    have hD : drawCardsOf cards = [] := by
      unfold drawCardsOf
      rw [hfil]
      rfl
    refine ⟨trivial, ?_⟩
    rw [hD, List.append_nil]
    exact hl

theorem processPlays_conserves (fromId : String) (ns : Option String)
    (acts : List ActionCard) :
    ∀ (g : GameState) (cut : Bool) (hand : List Card),
      lookupPlayer g.players fromId = some hand →
      (acts.map fun a => (⟨a.v, a.s⟩ : Card)).Nodup →
      (∀ c ∈ acts.map fun a => (⟨a.v, a.s⟩ : Card), hand.count c = 1) →
      ((allCardsList (processPlays fromId ns g cut acts).1 : List Card) : Multiset Card) =
        (allCardsList g : Multiset Card) := by
  induction acts with
  | nil =>
    intro g cut hand _ _ _
    rfl
  | cons a rest ih =>
    intro g cut hand hl hnd hcnt
    simp only [List.map_cons, List.nodup_cons] at hnd
    have hc1 : hand.count (⟨a.v, a.s⟩ : Card) = 1 := by
      refine hcnt _ ?_
      simp only [List.map_cons]
      exact List.mem_cons_self _ _
    obtain ⟨m, hm1, hm2⟩ := update_flatten_decomp g.players fromId hand hl
    have hperm := count_one_perm hand ⟨a.v, a.s⟩ hc1
    have hhand : (hand : Multiset Card) =
        (({(⟨a.v, a.s⟩ : Card)} : Multiset Card)) +
          ((hand.filter fun x =>
            !(x.v == (⟨a.v, a.s⟩ : Card).v && x.s == (⟨a.v, a.s⟩ : Card).s) : List Card) :
              Multiset Card) := by
      rw [Multiset.singleton_add, Multiset.cons_coe, Multiset.coe_eq_coe]
      exact hperm
    have hstep :
        ((allCardsList (processPlayAction g fromId ⟨a.v, a.s⟩ ns).1 : List Card) :
            Multiset Card) = (allCardsList g : Multiset Card) := by
      rw [processPlayAction_eq]
      simp only [allCardsList, hl, Option.getD_some]
      simp only [← Multiset.coe_add]
      rw [hm2, hm1, hhand]
      simp only [Multiset.coe_singleton]
      abel
    have hl' : lookupPlayer (processPlayAction g fromId ⟨a.v, a.s⟩ ns).1.players fromId =
        some (hand.filter fun x =>
          !(x.v == (⟨a.v, a.s⟩ : Card).v && x.s == (⟨a.v, a.s⟩ : Card).s)) := by
      rw [processPlayAction_eq]
      simp only [hl, Option.getD_some]
      exact lookupPlayer_update_self _ _ _ _ hl
    have hcnt' : ∀ c ∈ rest.map fun a => (⟨a.v, a.s⟩ : Card),
        (hand.filter fun x =>
          !(x.v == (⟨a.v, a.s⟩ : Card).v && x.s == (⟨a.v, a.s⟩ : Card).s)).count c = 1 := by
      intro c hc
      have hne : c ≠ ⟨a.v, a.s⟩ := fun h => hnd.1 (h ▸ hc)
      rw [count_filter_play _ _ _ hne]
      refine hcnt c ?_
      simp only [List.map_cons]
      exact List.mem_cons_of_mem _ hc
    simp only [processPlays]
    split
    · exact hstep
    · rw [ih (processPlayAction g fromId ⟨a.v, a.s⟩ ns).1 _ _ hl' hnd.2 hcnt']
      exact hstep

theorem allCardsList_eq_of_fields {g₁ g₂ : GameState} (hp : g₁.players = g₂.players)
    (hd : g₁.deck = g₂.deck) (hpc : g₁.playedCards = g₂.playedCards) :
    allCardsList g₁ = allCardsList g₂ := by
  unfold allCardsList
  rw [hp, hd, hpc]

/-- C8: replenishment fires exactly when the deck holds at most five
cards and more than one card has been discarded; it keeps only the most
recent discard as the discard pile, places the shuffled remainder
beneath the remaining deck cards (the end of the list is the drawable
top), grows the deck by `discards − 1`, and preserves the combined
multiset of deck and discard cards. -/
theorem reshuffle_policy (shuffle : List Card → List Card) (g : GameState)
    (hsh : ∀ l, (shuffle l).Perm l) :
    ((handleDeckReshuffle shuffle g).reshuffled = true ↔
      (g.deck.length ≤ 5 ∧ 1 < g.playedCards.length))
    ∧ (g.deck.length ≤ 5 → 1 < g.playedCards.length →
        (handleDeckReshuffle shuffle g).state.playedCards =
            [(g.playedCards.getLast?).getD ⟨0, ""⟩]
        ∧ (handleDeckReshuffle shuffle g).state.deck =
            shuffle g.playedCards.dropLast ++ g.deck
        ∧ (handleDeckReshuffle shuffle g).state.deck.length =
            g.deck.length + (g.playedCards.length - 1)
        ∧ ((handleDeckReshuffle shuffle g).state.deck ++
              (handleDeckReshuffle shuffle g).state.playedCards).Perm
            (g.deck ++ g.playedCards)) := by
  constructor
  · constructor
    · intro hr
      by_contra hc
      unfold handleDeckReshuffle at hr
      rw [if_neg hc] at hr
      simp at hr
    · intro hc
      unfold handleDeckReshuffle
      rw [if_pos hc]
  · intro h1 h2
    have hcond : g.deck.length ≤ 5 ∧ 1 < g.playedCards.length := ⟨h1, h2⟩
    unfold handleDeckReshuffle
    rw [if_pos hcond]
    refine ⟨rfl, ?_, ?_, ?_⟩
    · simp [reshufflePlayedCards]
    · simp only [reshufflePlayedCards, List.nil_append, List.length_append]
      rw [(hsh _).length_eq, List.length_dropLast]
      omega
    · simp only [reshufflePlayedCards, List.nil_append]
      rw [← Multiset.coe_eq_coe]
      simp only [← Multiset.coe_add]
      have hs1 : ((shuffle g.playedCards.dropLast : List Card) : Multiset Card) =
          (g.playedCards.dropLast : Multiset Card) :=
        Multiset.coe_eq_coe.mpr (hsh _)
      have hs2 : ((g.playedCards.dropLast : List Card) : Multiset Card) +
          (([(g.playedCards.getLast?).getD ⟨0, ""⟩] : List Card) : Multiset Card) =
          (g.playedCards : Multiset Card) := by
        rw [Multiset.coe_add, dropLast_getLast_append g.playedCards h2]
      rw [hs1, ← hs2]
      abel

/-- Witness for C8, the spec's Example 5: a 4-card deck and a 6-card
discard pile reshuffle into a 9-card deck and a 1-card discard pile. -/
theorem reshuffle_policy_witness :
    (handleDeckReshuffle id gC8).reshuffled = true
    ∧ (handleDeckReshuffle id gC8).state.deck.length = 9
    ∧ (handleDeckReshuffle id gC8).state.playedCards.length = 1 := by
  have h := reshuffle_policy id gC8 (fun l => List.Perm.refl l)
  refine ⟨h.1.mpr (by decide), ?_, ?_⟩
  · rw [(h.2 (by decide) (by decide)).2.2.1]
    decide
  · rw [(h.2 (by decide) (by decide)).1]
    decide

/-- C2 counterexample: with two copies of the 5 of Hearts in `p1`'s
hand, playing one removes both (the hand removal is a filter stripping
every matching copy) while only one card reaches the discard pile: the
total number of tracked cards drops from 7 to 6, so conservation fails
for a turn the handler processes to completion. -/
theorem conservation_counterexample :
    (allCardsList gC2).length = 7
    ∧ (allCardsList (handleMove id gC2 dC2).state).length = 6
    ∧ (handleMove id gC2 dC2).outcome = .continued := by
  decide

/-- C2 (amended): the multiset of cards across hands, deck and discard
pile is preserved by a turn provided each claimed drawn card matches the
true top of the (post-reshuffle) deck, the played cards are pairwise
distinct, and the actor holds exactly one copy of each played card after
drawing.  (Duplicate copies in hand, or a played card not held, break
conservation — the filter-based removal strips every copy while exactly
one card is appended to the pile.) -/
theorem conservation_for_clean_turns
    (shuffle : List Card → List Card) (g : GameState) (d : MoveData)
    (hsh : ∀ l, (shuffle l).Perm l)
    (hmem : (lookupPlayer g.players d.fromId).isSome = true)
    (hdraw : validateDrawnCards
        (handleDeckReshuffle shuffle { g with waitTimeout := false }).state.deck
        (drawCardsOf d.cards) = true)
    (hnodup : (playCardsOf d.cards).Nodup)
    (hcount : ∀ c ∈ playCardsOf d.cards,
      (((lookupPlayer g.players d.fromId).getD []) ++ drawCardsOf d.cards).count c = 1) :
    (allCardsList (handleMove shuffle g d).state).Perm (allCardsList g) := by
  obtain ⟨hand, hl⟩ := Option.isSome_iff_exists.mp hmem
  have hl1 : lookupPlayer ({ g with waitTimeout := false } : GameState).players d.fromId =
      some hand := hl
  obtain ⟨hdc, hdl⟩ := drawPhase_conserves shuffle { g with waitTimeout := false }
    d.fromId d.cards hand hsh hl1 hdraw
  have hpc : ((allCardsList (processPlays d.fromId d.newSuit
        (drawPhase shuffle { g with waitTimeout := false } d.fromId d.cards).1 false
        (d.cards.filter fun c => c.type == "PLAY")).1 : List Card) : Multiset Card) =
      (allCardsList (drawPhase shuffle { g with waitTimeout := false }
        d.fromId d.cards).1 : Multiset Card) := by
    refine processPlays_conserves d.fromId d.newSuit _ _ _ _ hdl ?_ ?_
    · exact hnodup
    · intro c hc
      have hcc := hcount c hc
      rw [hl] at hcc
      simpa using hcc
  rw [← Multiset.coe_eq_coe]
  simp only [handleMove, hl]
  have hfin := finishPlays_state d
    (drawPhase shuffle { g with waitTimeout := false } d.fromId d.cards).2
    (processPlays d.fromId d.newSuit
      (drawPhase shuffle { g with waitTimeout := false } d.fromId d.cards).1 false
      (d.cards.filter fun c => c.type == "PLAY"))
  rw [allCardsList_eq_of_fields hfin.1 hfin.2.1 hfin.2.2]
  rw [hpc, hdc]
  rfl

/-- Witness for C2's amended statement: a clean turn (one valid draw,
one play of a singly-held card) preserves the card multiset. -/
theorem conservation_for_clean_turns_witness :
    (allCardsList (handleMove id gC2w dC2w).state).Perm (allCardsList gC2w) :=
  conservation_for_clean_turns id gC2w dC2w (fun l => List.Perm.refl l)
    (by decide) (by decide) (by decide) (by decide)

end Matatu
